import Mathlib

/-!
Formal model of `src/generate_mapping.py` (Civil 3D IFC property-mapping
generator).  The Python program is shallowly embedded: strings are Lean
`String`s, Python `list`/`tuple` become `List`, `dict`s become association
lists, exceptions become `Except String`, and the file-system side effects of
the writer functions become explicit effect lists.  Python string comparison
(code-point lexicographic) is modelled by `lexLe` on the underlying character
lists, and Python `sorted` by insertion sort over that relation.
-/

namespace IfcMapping

/-! ### String utilities -/

/-- Code-point lexicographic comparison of character lists, the order Python
uses when comparing `str` values. -/
def lexLe : List Char → List Char → Bool
  | [], _ => true
  | _ :: _, [] => false
  | a :: as, b :: bs =>
    if a.val.toNat < b.val.toNat then true
    else if b.val.toNat < a.val.toNat then false
    else lexLe as bs

/-- Python string `<=` (code-point lexicographic). -/
def strLe (a b : String) : Bool := lexLe a.data b.data

/-- Remove leading and trailing whitespace from a character list, as Python
`str.strip()` does. -/
def trimChars (l : List Char) : List Char :=
  ((l.dropWhile Char.isWhitespace).reverse.dropWhile Char.isWhitespace).reverse

/-- Python `str.strip()`. -/
def strTrim (s : String) : String := String.mk (trimChars s.data)

/-- Python `str.lower()` (ASCII case folding suffices for this program). -/
def strLower (s : String) : String := String.mk (s.data.map Char.toLower)

/-- A single-quote character, used inside the error messages of the script. -/
def sq : String := String.mk [Char.ofNat 39]

/-! ### Constants of `generate_mapping.py` -/

def REQUIRED_COLUMNS : List String :=
  ["PSet", "Nome_IFC", "Nome_Civil", "Tipo_IFC", "Entita_IFC"]

def COLUMN_ALIASES : List (String × String) :=
  [("EntitÃ _IFC", "Entita_IFC"),
   ("Entity_IFC", "Entita_IFC"),
   ("Civil_Name", "Nome_Civil"),
   ("IFC_Name", "Nome_IFC")]

/-- `NAME_CORRECTIONS.get(name, name)` from the script. -/
def nameCorrection (name : String) : String :=
  if name = "CordhLength" then "ChordLength" else name

def ALLOWED_TYPES : List String :=
  ["IfcBoolean", "IfcIdentifier", "IfcInteger", "IfcLabel", "IfcLengthMeasure",
   "IfcLogical", "IfcPositiveLengthMeasure", "IfcRatioMeasure", "IfcReal",
   "IfcText"]

def CSV_HEADER : List String := ["PSet", "IFCName", "IsActive", "Group", "CivilSource"]

def DEFAULT_SOURCE : String := "Civil 3D"

def DEFAULT_SOURCE_REFERENCE : String := "UserDefined"

/-! ### Raw rows -/

/-- A raw spreadsheet row after ingestion: an association list from column
name to cell value, `none` standing for a missing (NaN/None) cell. -/
abbrev RawRow : Type := List (String × Option String)

/-- First-match association-list lookup (Python `dict` access). -/
def lookupAssoc {β : Type} : List (String × β) → String → Option β
  | [], _ => none
  | (k, v) :: rest, key => if key = k then some v else lookupAssoc rest key

/-- `record.get(column, "")` followed by the `None`-guard of `from_raw`. -/
def cellValue (r : RawRow) (col : String) : String :=
  match lookupAssoc r col with
  | none => ""
  | some none => ""
  | some (some v) => v

/-- The normalised text of one required column: fetched with default `""` and
whitespace-stripped, as in the loop at the top of `MappingRecord.from_raw`. -/
def normaliseColumn (r : RawRow) (col : String) : String :=
  strTrim (cellValue r col)

/-! ### Entity parsing -/

/-- The delimiter class of `ENTITY_SPLIT_PATTERN = re.compile(r"[;,\n]+")`. -/
def isEntitySep (c : Char) : Bool := c = ';' || c = ',' || c = '\n'

/-- `entities_text.replace("/", ",")`. -/
def replaceSlash (l : List Char) : List Char :=
  l.map (fun c => if c = '/' then ',' else c)

/-- Split a character list at every delimiter character.  Splitting at single
delimiters instead of delimiter runs is equivalent to the regex split because
the empty fragments produced inside a run are dropped afterwards. -/
def splitSeps : List Char → List (List Char)
  | [] => [[]]
  | c :: rest =>
    let acc := splitSeps rest
    if isEntitySep c then [] :: acc
    else
      match acc with
      | [] => [[c]]
      | f :: fs => (c :: f) :: fs

/-- The entity-cell parse of `MappingRecord.from_raw`: replace `/` by `,`,
split on the delimiter class, strip each fragment and keep the non-empty
ones. -/
def parseEntities (s : String) : List String :=
  (((splitSeps (replaceSlash s.data)).map trimChars).filter
      (fun f => !f.isEmpty)).map String.mk

/-! ### MappingRecord -/

/-- Normalised row extracted from the Excel workbook. -/
structure MappingRecord where
  pset : String
  ifc_name : String
  civil_name : String
  ifc_type : String
  entities : List String
deriving DecidableEq

/-! Error messages of `MappingRecord.from_raw`. -/

def psetEmptyMsg : String := "PSet column contains empty value."

def nomeIfcRequiredMsg (pset : String) : String :=
  "Nome_IFC is required for PSet " ++ sq ++ pset ++ sq ++ "."

def nomeCivilRequiredMsg (nomeIfc pset : String) : String :=
  "Nome_Civil is required for IFC property " ++ sq ++ nomeIfc ++ sq ++
    " in PSet " ++ sq ++ pset ++ sq ++ "."

def typeErrorMsg (tipo corrected : String) : String :=
  ("Tipo_IFC " ++ sq) ++ tipo ++
    (sq ++ " is not an allowed IFC measure type for property " ++ sq ++
      corrected ++ sq ++ ".")

def entitiesErrorMsg (corrected pset : String) : String :=
  "Entita_IFC must contain at least one entity for property " ++ sq ++
    corrected ++ sq ++ " in PSet " ++ sq ++ pset ++ sq ++ "."

/-- `MappingRecord.from_raw`: validate and normalise one raw row. -/
def MappingRecord.from_raw (r : RawRow) : Except String MappingRecord :=
  let pset := normaliseColumn r "PSet"
  let nomeIfc := normaliseColumn r "Nome_IFC"
  let nomeCivil := normaliseColumn r "Nome_Civil"
  let tipoIfc := normaliseColumn r "Tipo_IFC"
  let entitaIfc := normaliseColumn r "Entita_IFC"
  if pset = "" then .error psetEmptyMsg
  else if nomeIfc = "" then .error (nomeIfcRequiredMsg pset)
  else if nomeCivil = "" then .error (nomeCivilRequiredMsg nomeIfc pset)
  else
    let corrected := nameCorrection nomeIfc
    if tipoIfc ∈ ALLOWED_TYPES then
      if entitaIfc = "" then .error (entitiesErrorMsg corrected pset)
      else
        let entities := parseEntities entitaIfc
        if entities = [] then .error (entitiesErrorMsg corrected pset)
        else .ok ⟨pset, corrected, nomeCivil, tipoIfc, entities⟩
    else .error (typeErrorMsg tipoIfc corrected)

/-! ### load_source -/

/-- The readable content behind a workbook path: its column headers and its
rows (an in-memory image of what `pd.read_excel(..., dtype=str)` followed by
`fillna("")` yields). -/
structure Workbook where
  columns : List String
  rows : List RawRow
deriving DecidableEq

/-- Rename one column header through `COLUMN_ALIASES`. -/
def applyAlias (col : String) : String :=
  match lookupAssoc COLUMN_ALIASES col with
  | some target => target
  | none => col

/-- `frame.rename(columns=...)` applied to one row of `frame.to_dict`. -/
def renameRow (r : RawRow) : RawRow :=
  r.map (fun kv => (applyAlias kv.1, kv.2))

def dupIfcMsg (name pset : String) : String :=
  "Duplicate IFC property " ++ sq ++ name ++ sq ++ " detected for PSet " ++
    sq ++ pset ++ sq ++ "."

def dupCivilMsg (name pset : String) : String :=
  "Duplicate Civil 3D property name " ++ sq ++ name ++ sq ++
    " detected for PSet " ++ sq ++ pset ++ sq ++ "."

/-- The row loop of `load_source`, carrying `seen_pairs`, `seen_civil` and the
accumulated records (newest first; reversed on success). -/
def loadRows : List RawRow → List (String × String) → List (String × String) →
    List MappingRecord → Except String (List MappingRecord)
  | [], _, _, acc => .ok acc.reverse
  | r :: rest, seenPairs, seenCivil, acc =>
    match MappingRecord.from_raw r with
    | .error e => .error e
    | .ok record =>
      if (record.pset, record.ifc_name) ∈ seenPairs then
        .error (dupIfcMsg record.ifc_name record.pset)
      else if (record.pset, strLower record.civil_name) ∈ seenCivil then
        .error (dupCivilMsg record.civil_name record.pset)
      else
        loadRows rest ((record.pset, record.ifc_name) :: seenPairs)
          ((record.pset, strLower record.civil_name) :: seenCivil)
          (record :: acc)

/-- `load_source`: `none` models a path that does not exist. -/
def load_source (src : Option Workbook) : Except String (List MappingRecord) :=
  match src with
  | none => .error "FileNotFoundError"
  | some wb =>
    let cols := wb.columns.map applyAlias
    let missing := REQUIRED_COLUMNS.filter (fun c => !cols.contains c)
    if missing.isEmpty then loadRows (wb.rows.map renameRow) [] [] []
    else .error ("Missing required columns in Excel source: " ++
      String.intercalate ", " missing)

/-! ### build_property_sets -/

/-- One entry of a property-set template (`payload.append({...})`). -/
structure PropertyEntry where
  Name : String
  CivilName : String
  IFCType : String
  Source : String
  IsExported : Bool
deriving DecidableEq

/-- One row of the flattened CSV view (`csv_rows.append({...})`). -/
structure CsvRow where
  PSet : String
  IFCName : String
  IsActive : String
  Group : String
  CivilSource : String
deriving DecidableEq

/-- One element of the `property_sets` list built by `build_property_sets`. -/
structure PropertySetTemplate where
  Name : String
  Source : String
  PrimaryMeasureType : String
  ApplicableEntities : List String
  Properties : List PropertyEntry
deriving DecidableEq

def toEntry (r : MappingRecord) : PropertyEntry :=
  ⟨r.ifc_name, r.civil_name, r.ifc_type, DEFAULT_SOURCE_REFERENCE, true⟩

def toCsvRow (pset : String) (r : MappingRecord) : CsvRow :=
  ⟨pset, r.ifc_name, "TRUE", "Property", r.civil_name⟩

/-- `set.add` on a duplicate-free list (insertion order is irrelevant because
every use is sorted before being emitted). -/
def insertSet (s : List String) (x : String) : List String :=
  if x ∈ s then s else s ++ [x]

/-- `defaultdict` update: apply `f` to the entry of `key` (defaulting to
`dflt`), keeping dictionary insertion order. -/
def updateAssoc {β : Type} (m : List (String × β)) (key : String) (dflt : β)
    (f : β → β) : List (String × β) :=
  match m with
  | [] => [(key, f dflt)]
  | (k, v) :: rest =>
    if key = k then (k, f v) :: rest else (k, v) :: updateAssoc rest key dflt f

/-- One step of filling `grouped_records`: append the record to its group. -/
def grStep (m : List (String × List MappingRecord)) (r : MappingRecord) :
    List (String × List MappingRecord) :=
  updateAssoc m r.pset [] (fun l => l ++ [r])

/-- `grouped_records`: `defaultdict(list)` filled by appending each record to
its group. -/
def groupedRecordsOf (records : List MappingRecord) :
    List (String × List MappingRecord) :=
  records.foldl grStep []

/-- One step of filling `grouped_entities`: add the record's entities to its
group's entity set. -/
def geStep (m : List (String × List String)) (r : MappingRecord) :
    List (String × List String) :=
  updateAssoc m r.pset [] (fun s => r.entities.foldl insertSet s)

/-- `grouped_entities`: `defaultdict(set)` updated with each record's
entities. -/
def groupedEntitiesOf (records : List MappingRecord) :
    List (String × List String) :=
  records.foldl geStep []

/-- Totality of the code-point lexicographic comparison. -/
def lexLeTotalFact : ∀ (a b : List Char), lexLe a b = true ∨ lexLe b a = true := by
  intro a
  induction a with
  | nil => intro b; left; rfl
  | cons x xs ih =>
    intro b
    cases b with
    | nil => right; rfl
    | cons y ys =>
      simp only [lexLe]
      rcases Nat.lt_trichotomy x.val.toNat y.val.toNat with h | h | h
      · left; simp [h]
      · have h2 : ¬ x.val.toNat < y.val.toNat := by omega
        have h3 : ¬ y.val.toNat < x.val.toNat := by omega
        simpa [h2, h3] using ih ys
      · right; simp [h]

/-- Transitivity of the code-point lexicographic comparison. -/
def lexLeTransFact : ∀ (a b c : List Char),
    lexLe a b = true → lexLe b c = true → lexLe a c = true := by
  intro a
  induction a with
  | nil => intro b c _ _; rfl
  | cons x xs ih =>
    intro b c hab hbc
    cases b with
    | nil => simp [lexLe] at hab
    | cons y ys =>
      cases c with
      | nil => simp [lexLe] at hbc
      | cons z zs =>
        simp only [lexLe] at hab hbc ⊢
        by_cases hxy : x.val.toNat < y.val.toNat
        · by_cases hyz : y.val.toNat < z.val.toNat
          · simp [show x.val.toNat < z.val.toNat by omega]
          · by_cases hzy : z.val.toNat < y.val.toNat
            · simp [hyz, hzy] at hbc
            · simp [show x.val.toNat < z.val.toNat by omega]
        · by_cases hyx : y.val.toNat < x.val.toNat
          · simp [hxy, hyx] at hab
          · by_cases hyz : y.val.toNat < z.val.toNat
            · simp [show x.val.toNat < z.val.toNat by omega]
            · by_cases hzy : z.val.toNat < y.val.toNat
              · simp [hyz, hzy] at hbc
              · have h1 : ¬ x.val.toNat < z.val.toNat := by omega
                have h2 : ¬ z.val.toNat < x.val.toNat := by omega
                simp only [hxy, hyx, if_neg, if_false] at hab
                simp only [hyz, hzy, if_neg, if_false] at hbc
                simp only [h1, h2, if_neg, if_false]
                exact ih ys zs hab hbc

/-- Python `<=` on strings as a relation, for sorting. -/
def StrLeP (a b : String) : Prop := strLe a b = true

instance : DecidableRel StrLeP := fun a b => instDecidableEqBool (strLe a b) true

instance : IsTotal String StrLeP := ⟨fun a b => lexLeTotalFact a.data b.data⟩

instance : IsTrans String StrLeP :=
  ⟨fun a b c hab hbc => lexLeTransFact a.data b.data c.data hab hbc⟩

/-- The sort key `lambda item: item.ifc_name` as a relation. -/
def RecLeP (a b : MappingRecord) : Prop := strLe a.ifc_name b.ifc_name = true

instance : DecidableRel RecLeP :=
  fun a b => instDecidableEqBool (strLe a.ifc_name b.ifc_name) true

instance : IsTotal MappingRecord RecLeP :=
  ⟨fun a b => lexLeTotalFact a.ifc_name.data b.ifc_name.data⟩

instance : IsTrans MappingRecord RecLeP :=
  ⟨fun a b c hab hbc =>
    lexLeTransFact a.ifc_name.data b.ifc_name.data c.ifc_name.data hab hbc⟩

/-- Python `sorted` on strings. -/
def sortStrings (l : List String) : List String := l.insertionSort StrLeP

/-- Python `sorted(..., key=lambda item: item.ifc_name)`. -/
def sortRecords (l : List MappingRecord) : List MappingRecord :=
  l.insertionSort RecLeP

/-- `build_property_sets`: group records by PSet, then emit one template per
group key in sorted key order, together with the flattened CSV rows. -/
def build_property_sets (records : List MappingRecord) :
    List PropertySetTemplate × List CsvRow :=
  let gr := groupedRecordsOf records
  let ge := groupedEntitiesOf records
  let keys := sortStrings (gr.map Prod.fst)
  let templates := keys.map (fun pset =>
    { Name := pset
      Source := DEFAULT_SOURCE
      PrimaryMeasureType := "IfcPropertySet"
      ApplicableEntities := sortStrings ((lookupAssoc ge pset).getD [])
      Properties := (sortRecords ((lookupAssoc gr pset).getD [])).map toEntry })
  let csvRows := keys.flatMap (fun pset =>
    (sortRecords ((lookupAssoc gr pset).getD [])).map (toCsvRow pset))
  (templates, csvRows)

/-! ### Writers and generate_mapping -/

/-- A file-system path as a component list (`pathlib.Path` with `/`). -/
abbrev FsPath : Type := List String

/-- The mapping document that `generate_mapping` serialises to
`mapping_validated.json`. -/
structure MappingDocument where
  GeneratedOn : String
  Source : String
  RecordCount : Nat
  PropertySetTemplates : List PropertySetTemplate
deriving DecidableEq

/-- The JSON documents the script can write. -/
inductive OutDocument where
  | mapping (doc : MappingDocument)
  | summary (mappingVersion generatedOn propertySetFile : String)
  | exportConfiguration (includePropertySets : Bool)
      (propertyMapping generatedOn : String)
deriving DecidableEq

/-- Observable file-system effects of the writer functions. -/
inductive OutEffect where
  | mkdirP (dir : FsPath)
  | writeJsonFile (path : FsPath) (doc : OutDocument)
  | writeCsvFile (path : FsPath) (header : List String) (rows : List CsvRow)
  | copyFile (srcPath target : FsPath)
deriving DecidableEq

/-- `write_json`: make the parent directory, then write the document. -/
def write_json (doc : OutDocument) (path : FsPath) : List OutEffect :=
  [.mkdirP path.dropLast, .writeJsonFile path doc]

/-- `write_csv`: materialise the rows; if there are none, return without
touching the file system; otherwise make the parent directory and write the
header plus one line per row. -/
def write_csv (rows : List CsvRow) (path : FsPath) : List OutEffect :=
  if rows.isEmpty then []
  else [.mkdirP path.dropLast, .writeCsvFile path CSV_HEADER rows]

/-- The copy loop at the end of `generate_mapping`: make the config directory,
then copy every produced file, skipping the self-copy case. -/
def mirrorEffects (produced : List (String × FsPath)) (config_dir : FsPath) :
    List OutEffect :=
  .mkdirP config_dir ::
    produced.foldr (fun fp acc =>
      if fp.2 = config_dir ++ [fp.1] then acc
      else .copyFile fp.2 (config_dir ++ [fp.1]) :: acc) []

/-- `generate_mapping`: load, aggregate, write the JSON and CSV outputs, the
optional auxiliary documents, and the mirrored copies.  Returns the effect
list together with the `produced` mapping from target filename to source
path; any load failure propagates and produces no effects at all. -/
def generate_mapping (src : Option Workbook) (source_name : String)
    (output_dir config_dir : FsPath) (timestamp : String)
    (include_optional : Bool) :
    Except String (List OutEffect × List (String × FsPath)) :=
  match load_source src with
  | .error e => .error e
  | .ok records =>
    let built := build_property_sets records
    let mapping_document : MappingDocument :=
      ⟨timestamp, source_name, records.length, built.1⟩
    let json_output := output_dir ++ ["mapping_validated.json"]
    let csv_output := output_dir ++ ["mapping_validated.csv"]
    let baseEffects := write_json (.mapping mapping_document) json_output ++
      write_csv built.2 csv_output
    let baseProduced := [("IfcInfraExportPropertyMapping.json", json_output),
      ("IfcInfraExportPropertyMapping.csv", csv_output)]
    let optional_mapping_path := output_dir ++ ["IfcInfraExportMapping.json"]
    let optional_configuration_path := output_dir ++ ["IfcInfraConfiguration.json"]
    let optEffects :=
      if include_optional then
        write_json (.summary "1.0" timestamp "IfcInfraExportPropertyMapping.json")
            optional_mapping_path ++
          write_json
            (.exportConfiguration true "IfcInfraExportPropertyMapping.json" timestamp)
            optional_configuration_path
      else []
    let produced := baseProduced ++
      (if include_optional then
        [("IfcInfraExportMapping.json", optional_mapping_path),
         ("IfcInfraConfiguration.json", optional_configuration_path)]
      else [])
    .ok (baseEffects ++ optEffects ++ mirrorEffects produced config_dir, produced)

/-! ### Derived notions used in the statements below -/

/-- The two load-wide uniqueness facts between two records: they do not share
`(pset, ifc_name)` (compared exactly) and do not share
`(pset, civil_name.lower())`. -/
def uniqRel (a b : MappingRecord) : Prop :=
  ¬(a.pset = b.pset ∧ a.ifc_name = b.ifc_name) ∧
    ¬(a.pset = b.pset ∧ strLower a.civil_name = strLower b.civil_name)

instance : ∀ a b, Decidable (uniqRel a b) := fun _ _ => by
  unfold uniqRel
  infer_instance

/-! ### Concrete inputs used in the counterexamples and witnesses -/

/-- The canonical header row of the workbook. -/
def stdColumns : List String :=
  ["PSet", "Nome_IFC", "Nome_Civil", "Tipo_IFC", "Entita_IFC"]

/-- Build a raw row from the five cell values. -/
def mkRow (pset nomeIfc nomeCivil tipoIfc entitaIfc : String) : RawRow :=
  [("PSet", some pset), ("Nome_IFC", some nomeIfc),
   ("Nome_Civil", some nomeCivil), ("Tipo_IFC", some tipoIfc),
   ("Entita_IFC", some entitaIfc)]

/-- Workbook with two rows in the same PSet whose IFC property names differ
only in letter case. -/
def wbCase : Workbook :=
  ⟨stdColumns,
   [mkRow "P" "Foo" "a" "IfcLabel" "Wall",
    mkRow "P" "foo" "b" "IfcLabel" "Wall"]⟩

/-- The records `load_source` produces for `wbCase`. -/
def recsCase : List MappingRecord :=
  [⟨"P", "Foo", "a", "IfcLabel", ["Wall"]⟩,
   ⟨"P", "foo", "b", "IfcLabel", ["Wall"]⟩]

/-- Workbook whose two property names `a` and `B` order differently under
case-sensitive and case-insensitive comparison. -/
def wbMixed : Workbook :=
  ⟨stdColumns,
   [mkRow "P" "a" "ca" "IfcLabel" "Wall",
    mkRow "P" "B" "cb" "IfcLabel" "Wall"]⟩

/-- The records `load_source` produces for `wbMixed`. -/
def recsMixed : List MappingRecord :=
  [⟨"P", "a", "ca", "IfcLabel", ["Wall"]⟩,
   ⟨"P", "B", "cb", "IfcLabel", ["Wall"]⟩]

/-- A raw row whose entities cell repeats a name. -/
def rowRepeated : RawRow := mkRow "P" "N" "C" "IfcLabel" "Wall;Wall"

/-- A raw row whose type cell is empty. -/
def rowEmptyType : RawRow := mkRow "P" "N" "C" "" "Wall"

/-- A workbook holding a single row whose PSet cell is whitespace-only. -/
def wbBlankPset : Workbook := ⟨stdColumns, [mkRow "   " "N" "C" "IfcLabel" "Wall"]⟩

/-- Three valid records in two groups, listed in non-sorted group order. -/
def recsTwoGroups : List MappingRecord :=
  [⟨"Q", "N1", "c1", "IfcLabel", ["Wall", "Slab"]⟩,
   ⟨"P", "N2", "c2", "IfcText", ["Beam"]⟩,
   ⟨"Q", "N0", "c3", "IfcReal", ["Slab", "Arch"]⟩]

/-- The template `build_property_sets recsMixed` emits for group `P`. -/
def tMixed : PropertySetTemplate :=
  ⟨"P", "Civil 3D", "IfcPropertySet", ["Wall"],
   [⟨"B", "cb", "IfcLabel", "UserDefined", true⟩,
    ⟨"a", "ca", "IfcLabel", "UserDefined", true⟩]⟩

/-- The template `build_property_sets recsTwoGroups` emits for group `Q`. -/
def tQ : PropertySetTemplate :=
  ⟨"Q", "Civil 3D", "IfcPropertySet", ["Arch", "Slab", "Wall"],
   [⟨"N0", "c3", "IfcReal", "UserDefined", true⟩,
    ⟨"N1", "c1", "IfcLabel", "UserDefined", true⟩]⟩

/-! ### Supporting lemmas -/

theorem dropWhile_self_idem {α : Type} (p : α → Bool) (l : List α) :
    List.dropWhile p (List.dropWhile p l) = List.dropWhile p l := by
  induction l with
  | nil => rfl
  | cons a t ih =>
    by_cases h : p a = true
    · simp [List.dropWhile_cons, h, ih]
    · simp [List.dropWhile_cons, h]

theorem head_dropWhile_false {α : Type} (p : α → Bool) :
    ∀ (l : List α) (a : α) (as : List α),
      List.dropWhile p l = a :: as → p a = false := by
  intro l
  induction l with
  | nil => intro a as h; simp at h
  | cons x t ih =>
    intro a as h
    by_cases hx : p x = true
    · rw [List.dropWhile_cons, if_pos hx] at h
      exact ih a as h
    · rw [List.dropWhile_cons, if_neg hx] at h
      cases h
      simpa using hx

theorem trimChars_idem (l : List Char) : trimChars (trimChars l) = trimChars l := by
  unfold trimChars
  set A := l.dropWhile Char.isWhitespace with hA
  set C := A.reverse.dropWhile Char.isWhitespace with hC
  have step1 : C.reverse.dropWhile Char.isWhitespace = C.reverse := by
    cases hcr : C.reverse with
    | nil => simp
    | cons a as =>
      have hsuf : C <:+ A.reverse := by
        rw [hC]; exact List.dropWhile_suffix _
      have hpre : C.reverse <+: A := by
        have h2 := hsuf.reverse
        simpa using h2
      obtain ⟨t, ht⟩ := hpre
      rw [hcr] at ht
      have hfa : Char.isWhitespace a = false := by
        apply head_dropWhile_false Char.isWhitespace l a (as ++ t)
        rw [← hA, ← ht]
        simp
      rw [List.dropWhile_cons, if_neg (by simp [hfa])]
  rw [step1, List.reverse_reverse, hC, dropWhile_self_idem]

theorem strTrim_idem (s : String) : strTrim (strTrim s) = strTrim s := by
  unfold strTrim
  rw [show (String.mk (trimChars s.data)).data = trimChars s.data from rfl,
    trimChars_idem]

/-- Every entity produced by the entities-cell parse is non-empty and already
whitespace-trimmed. -/
theorem parseEntities_mem (s : String) (e : String) (he : e ∈ parseEntities s) :
    e ≠ "" ∧ strTrim e = e := by
  unfold parseEntities at he
  rw [List.mem_map] at he
  obtain ⟨f, hf, hfe⟩ := he
  rw [List.mem_filter] at hf
  obtain ⟨hmem, hne⟩ := hf
  rw [List.mem_map] at hmem
  obtain ⟨g, _, hg⟩ := hmem
  have hfne : f ≠ [] := by
    intro h0
    rw [h0] at hne
    simp at hne
  constructor
  · intro h0
    rw [← hfe] at h0
    have : f = [] := by
      have h1 : (String.mk f).data = ("" : String).data := by rw [h0]
      simpa using h1
    exact hfne this
  · rw [← hfe]
    unfold strTrim
    rw [show (String.mk f).data = f from rfl, ← hg, trimChars_idem]

theorem mem_insertSet (s : List String) (x e : String) :
    e ∈ insertSet s x ↔ e ∈ s ∨ e = x := by
  unfold insertSet
  by_cases h : x ∈ s
  · rw [if_pos h]
    exact ⟨Or.inl, fun h2 => h2.elim id (fun he => he ▸ h)⟩
  · rw [if_neg h]
    simp

theorem nodup_insertSet (s : List String) (x : String) (h : s.Nodup) :
    (insertSet s x).Nodup := by
  unfold insertSet
  by_cases hx : x ∈ s
  · rwa [if_pos hx]
  · rw [if_neg hx]
    simp [List.nodup_append, h, hx]

theorem mem_foldl_insertSet :
    ∀ (es : List String) (s : List String) (e : String),
      e ∈ es.foldl insertSet s ↔ e ∈ s ∨ e ∈ es := by
  intro es
  induction es with
  | nil => intro s e; simp
  | cons x xs ih =>
    intro s e
    rw [List.foldl_cons, ih, mem_insertSet]
    simp [or_assoc]

theorem nodup_foldl_insertSet :
    ∀ (es : List String) (s : List String), s.Nodup → (es.foldl insertSet s).Nodup := by
  intro es
  induction es with
  | nil => intro s h; exact h
  | cons x xs ih =>
    intro s h
    rw [List.foldl_cons]
    exact ih _ (nodup_insertSet s x h)

theorem lookup_updateAssoc_self {β : Type} :
    ∀ (m : List (String × β)) (key : String) (d : β) (f : β → β),
      lookupAssoc (updateAssoc m key d f) key =
        some (f ((lookupAssoc m key).getD d)) := by
  intro m
  induction m with
  | nil => intro key d f; simp [updateAssoc, lookupAssoc]
  | cons kv rest ih =>
    intro key d f
    obtain ⟨k, v⟩ := kv
    by_cases h : key = k
    · simp [updateAssoc, lookupAssoc, h]
    · simp only [updateAssoc, lookupAssoc, if_neg h]
      exact ih key d f

theorem lookup_updateAssoc_ne {β : Type} :
    ∀ (m : List (String × β)) (key k : String) (d : β) (f : β → β), k ≠ key →
      lookupAssoc (updateAssoc m key d f) k = lookupAssoc m k := by
  intro m
  induction m with
  | nil => intro key k d f hne; simp [updateAssoc, lookupAssoc, if_neg hne]
  | cons kv rest ih =>
    intro key k d f hne
    obtain ⟨k0, v⟩ := kv
    by_cases h : key = k0
    · subst h
      simp [updateAssoc, lookupAssoc, if_neg hne]
    · simp only [updateAssoc, if_neg h, lookupAssoc]
      by_cases h2 : k = k0
      · rw [if_pos h2, if_pos h2]
      · rw [if_neg h2, if_neg h2]
        exact ih key k d f hne

theorem mem_keys_updateAssoc {β : Type} :
    ∀ (m : List (String × β)) (key x : String) (d : β) (f : β → β),
      x ∈ (updateAssoc m key d f).map Prod.fst ↔
        x ∈ m.map Prod.fst ∨ x = key := by
  intro m
  induction m with
  | nil => intro key x d f; simp [updateAssoc]
  | cons kv rest ih =>
    intro key x d f
    obtain ⟨k, v⟩ := kv
    by_cases h : key = k
    · subst h
      simp only [updateAssoc, if_pos rfl, List.map_cons, List.mem_cons, reduceIte]
      tauto
    · simp only [updateAssoc, if_neg h, List.map_cons, List.mem_cons, ih]
      tauto

theorem nodup_keys_updateAssoc {β : Type} :
    ∀ (m : List (String × β)) (key : String) (d : β) (f : β → β),
      (m.map Prod.fst).Nodup → ((updateAssoc m key d f).map Prod.fst).Nodup := by
  intro m
  induction m with
  | nil => intro key d f _; simp [updateAssoc]
  | cons kv rest ih =>
    intro key d f h
    obtain ⟨k, v⟩ := kv
    simp only [List.map_cons, List.nodup_cons] at h
    by_cases hk : key = k
    · subst hk
      simp only [updateAssoc, if_pos rfl, List.map_cons, List.nodup_cons, reduceIte]
      exact h
    · simp only [updateAssoc, if_neg hk, List.map_cons, List.nodup_cons]
      refine ⟨?_, ih key d f h.2⟩
      rw [mem_keys_updateAssoc]
      rintro (hm | he)
      · exact h.1 hm
      · exact hk he.symm

theorem geFold_mem :
    ∀ (records : List MappingRecord) (m : List (String × List String))
      (k : String) (e : String),
      e ∈ (lookupAssoc (records.foldl geStep m) k).getD [] ↔
        e ∈ (lookupAssoc m k).getD [] ∨
          ∃ r, r ∈ records ∧ r.pset = k ∧ e ∈ r.entities := by
  intro records
  induction records with
  | nil => intro m k e; simp
  | cons r rest ih =>
    intro m k e
    rw [List.foldl_cons, ih]
    by_cases hk : k = r.pset
    · subst hk
      unfold geStep
      rw [lookup_updateAssoc_self]
      simp only [Option.getD_some, mem_foldl_insertSet, List.mem_cons]
      constructor
      · rintro ((h1 | h2) | h3)
        · exact Or.inl h1
        · exact Or.inr ⟨r, Or.inl rfl, rfl, h2⟩
        · obtain ⟨r2, hr2, hp, he2⟩ := h3
          exact Or.inr ⟨r2, Or.inr hr2, hp, he2⟩
      · rintro (h1 | ⟨r2, (hr2 | hr2), hp, he2⟩)
        · exact Or.inl (Or.inl h1)
        · subst hr2
          exact Or.inl (Or.inr he2)
        · exact Or.inr ⟨r2, hr2, hp, he2⟩
    · unfold geStep
      rw [lookup_updateAssoc_ne _ _ _ _ _ hk]
      simp only [List.mem_cons]
      constructor
      · rintro (h1 | ⟨r2, hr2, hp, he2⟩)
        · exact Or.inl h1
        · exact Or.inr ⟨r2, Or.inr hr2, hp, he2⟩
      · rintro (h1 | ⟨r2, (hr2 | hr2), hp, he2⟩)
        · exact Or.inl h1
        · subst hr2
          exact absurd hp.symm hk
        · exact Or.inr ⟨r2, hr2, hp, he2⟩

theorem geFold_nodup :
    ∀ (records : List MappingRecord) (m : List (String × List String)),
      (∀ k s, lookupAssoc m k = some s → s.Nodup) →
      ∀ k s, lookupAssoc (records.foldl geStep m) k = some s → s.Nodup := by
  intro records
  induction records with
  | nil => intro m hm k s h; exact hm k s h
  | cons r rest ih =>
    intro m hm k s h
    rw [List.foldl_cons] at h
    refine ih (geStep m r) ?_ k s h
    intro k2 s2 h2
    unfold geStep at h2
    by_cases hk : k2 = r.pset
    · subst hk
      rw [lookup_updateAssoc_self] at h2
      cases h2
      apply nodup_foldl_insertSet
      cases hb : lookupAssoc m r.pset with
      | none => simp
      | some s0 =>
        simp only [Option.getD_some]
        exact hm r.pset s0 hb
    · rw [lookup_updateAssoc_ne _ _ _ _ _ hk] at h2
      exact hm k2 s2 h2

theorem ge_mem (records : List MappingRecord) (k e : String) :
    e ∈ (lookupAssoc (groupedEntitiesOf records) k).getD [] ↔
      ∃ r, r ∈ records ∧ r.pset = k ∧ e ∈ r.entities := by
  unfold groupedEntitiesOf
  rw [geFold_mem]
  simp [lookupAssoc]

theorem ge_nodup (records : List MappingRecord) (k : String) :
    ((lookupAssoc (groupedEntitiesOf records) k).getD []).Nodup := by
  cases hb : lookupAssoc (groupedEntitiesOf records) k with
  | none => simp
  | some s =>
    simp only [Option.getD_some]
    unfold groupedEntitiesOf at hb
    refine geFold_nodup records [] ?_ k s hb
    intro k2 s2 h2
    simp [lookupAssoc] at h2

theorem grFold_keys_nodup :
    ∀ (records : List MappingRecord) (m : List (String × List MappingRecord)),
      (m.map Prod.fst).Nodup → ((records.foldl grStep m).map Prod.fst).Nodup := by
  intro records
  induction records with
  | nil => intro m h; exact h
  | cons r rest ih =>
    intro m h
    rw [List.foldl_cons]
    exact ih (grStep m r) (nodup_keys_updateAssoc m r.pset [] _ h)

theorem gr_keys_nodup (records : List MappingRecord) :
    ((groupedRecordsOf records).map Prod.fst).Nodup := by
  unfold groupedRecordsOf
  exact grFold_keys_nodup records [] (by simp)

theorem sortStrings_pairwise (l : List String) :
    (sortStrings l).Pairwise StrLeP :=
  List.sorted_insertionSort StrLeP l

theorem sortStrings_perm (l : List String) : (sortStrings l).Perm l :=
  List.perm_insertionSort StrLeP l

theorem sortRecords_pairwise (l : List MappingRecord) :
    (sortRecords l).Pairwise RecLeP :=
  List.sorted_insertionSort RecLeP l

theorem sortRecords_perm (l : List MappingRecord) : (sortRecords l).Perm l :=
  List.perm_insertionSort RecLeP l

theorem uniqRel_symm (a b : MappingRecord) (h : uniqRel a b) : uniqRel b a := by
  obtain ⟨h1, h2⟩ := h
  constructor
  · rintro ⟨hp, hn⟩
    exact h1 ⟨hp.symm, hn.symm⟩
  · rintro ⟨hp, hn⟩
    exact h2 ⟨hp.symm, hn.symm⟩

theorem loadRows_not_ok :
    ∀ (rows : List RawRow) (sp sc : List (String × String))
      (acc : List MappingRecord) (r : RawRow), r ∈ rows →
      (∀ rec, MappingRecord.from_raw r ≠ .ok rec) →
      (loadRows rows sp sc acc).isOk = false := by
  intro rows
  induction rows with
  | nil => intro sp sc acc r hr _; simp at hr
  | cons r0 rest ih =>
    intro sp sc acc r hr hbad
    rw [List.mem_cons] at hr
    cases hfr : MappingRecord.from_raw r0 with
    | error e => simp [loadRows, hfr, Except.isOk, Except.toBool]
    | ok record =>
      rcases hr with hr | hr
      · subst hr
        exact absurd hfr (hbad record)
      · simp only [loadRows, hfr]
        by_cases h1 : (record.pset, record.ifc_name) ∈ sp
        · simp [h1, Except.isOk, Except.toBool]
        · by_cases h2 : (record.pset, strLower record.civil_name) ∈ sc
          · simp [h1, h2, Except.isOk, Except.toBool]
          · simp only [if_neg h1, if_neg h2]
            exact ih _ _ _ r hr hbad

theorem loadRows_pairwise :
    ∀ (rows : List RawRow) (sp sc : List (String × String))
      (acc records : List MappingRecord),
      (∀ r, r ∈ acc →
        (r.pset, r.ifc_name) ∈ sp ∧ (r.pset, strLower r.civil_name) ∈ sc) →
      acc.Pairwise uniqRel →
      loadRows rows sp sc acc = .ok records → records.Pairwise uniqRel := by
  intro rows
  induction rows with
  | nil =>
    intro sp sc acc records hinv hpw h
    simp only [loadRows] at h
    cases h
    rw [List.pairwise_reverse]
    exact hpw.imp (fun hab => uniqRel_symm _ _ hab)
  | cons r0 rest ih =>
    intro sp sc acc records hinv hpw h
    simp only [loadRows] at h
    cases hfr : MappingRecord.from_raw r0 with
    | error e => simp [hfr] at h
    | ok record =>
      rw [hfr] at h
      simp only at h
      by_cases h1 : (record.pset, record.ifc_name) ∈ sp
      · rw [if_pos h1] at h
        cases h
      · by_cases h2 : (record.pset, strLower record.civil_name) ∈ sc
        · rw [if_neg h1, if_pos h2] at h
          cases h
        · rw [if_neg h1, if_neg h2] at h
          apply ih _ _ _ _ ?_ ?_ h
          · intro r hr
            rcases List.mem_cons.mp hr with hr | hr
            · subst hr
              exact ⟨List.mem_cons_self _ _, List.mem_cons_self _ _⟩
            · obtain ⟨ha, hb⟩ := hinv r hr
              exact ⟨List.mem_cons_of_mem _ ha, List.mem_cons_of_mem _ hb⟩
          · rw [List.pairwise_cons]
            refine ⟨?_, hpw⟩
            intro b hb
            obtain ⟨hbp, hbc⟩ := hinv b hb
            constructor
            · rintro ⟨hp, hn⟩
              apply h1
              rw [hp, hn]
              exact hbp
            · rintro ⟨hp, hn⟩
              apply h2
              rw [hp, hn]
              exact hbc

/-! ### Claim theorems -/

/-- Claim C7: parsing an entities cell splits on any of the four separators,
trims fragments and drops empty ones; on the input `Wall/Slab; Beam,Column`
the result is exactly Wall, Slab, Beam, Column. -/
theorem C7_parse_entities_splits_all_separators :
    parseEntities "Wall/Slab; Beam,Column" = ["Wall", "Slab", "Beam", "Column"] ∧
    parseEntities " Wall \n ; Slab " = ["Wall", "Slab"] := by
  refine ⟨by decide, by decide⟩

/-- Claim C10: on an empty row sequence `write_csv` is a silent no-op — it
performs no file-system effect at all: no file write and no directory
creation. -/
theorem C10_write_csv_empty_is_noop (path : FsPath) : write_csv [] path = [] := rfl

/-- Claim C4: when loading fails for any reason, `generate_mapping` propagates
the error and produces no output effects whatsoever — no JSON write, no CSV
write, no directory creation and no mirrored copy. -/
theorem C4_load_failure_aborts_before_output (src : Option Workbook)
    (source_name : String) (output_dir config_dir : FsPath) (timestamp : String)
    (include_optional : Bool) (e : String) (h : load_source src = .error e) :
    generate_mapping src source_name output_dir config_dir timestamp
      include_optional = .error e := by
  unfold generate_mapping
  rw [h]

/-- Witness for C4 at a missing source file. -/
theorem C4_witness :
    load_source none = .error "FileNotFoundError" ∧
    generate_mapping none "mapping_source.xlsx" ["mapping"]
      ["IfcInfraExportConfiguration"] "2025-01-01T00:00:00+00:00" true =
      .error "FileNotFoundError" :=
  ⟨rfl, C4_load_failure_aborts_before_output none "mapping_source.xlsx"
    ["mapping"] ["IfcInfraExportConfiguration"] "2025-01-01T00:00:00+00:00"
    true "FileNotFoundError" rfl⟩

/-- Counterexample to claim C3: a raw row whose entities cell repeats a name
validates successfully, and the resulting record's entities tuple contains the
name twice — the record-level entity collection is not deduplicated. -/
theorem C3_counterexample :
    MappingRecord.from_raw rowRepeated =
      .ok ⟨"P", "N", "C", "IfcLabel", ["Wall", "Wall"]⟩ ∧
    ¬ (["Wall", "Wall"] : List String).Nodup := by
  refine ⟨by rfl, by decide⟩

/-- Claim C3 as amended: the entities list of a validated record is non-empty
and every entity in it is a non-empty, already-trimmed fragment; duplicates
are preserved (deduplication happens only at group level). -/
theorem C3_amended_entities_trimmed_nonempty (r : RawRow) (rec : MappingRecord)
    (h : MappingRecord.from_raw r = .ok rec) :
    rec.entities ≠ [] ∧ ∀ e, e ∈ rec.entities → e ≠ "" ∧ strTrim e = e := by
  simp only [MappingRecord.from_raw] at h
  by_cases h1 : normaliseColumn r "PSet" = ""
  · rw [if_pos h1] at h; cases h
  rw [if_neg h1] at h
  by_cases h2 : normaliseColumn r "Nome_IFC" = ""
  · rw [if_pos h2] at h; cases h
  rw [if_neg h2] at h
  by_cases h3 : normaliseColumn r "Nome_Civil" = ""
  · rw [if_pos h3] at h; cases h
  rw [if_neg h3] at h
  by_cases h4 : normaliseColumn r "Tipo_IFC" ∈ ALLOWED_TYPES
  · rw [if_pos h4] at h
    by_cases h5 : normaliseColumn r "Entita_IFC" = ""
    · rw [if_pos h5] at h; cases h
    rw [if_neg h5] at h
    by_cases h6 : parseEntities (normaliseColumn r "Entita_IFC") = []
    · rw [if_pos h6] at h; cases h
    rw [if_neg h6] at h
    cases h
    exact ⟨h6, fun e he => parseEntities_mem _ e he⟩
  · rw [if_neg h4] at h; cases h

/-- Witness for the amended C3 at the repeated-entities row. -/
theorem C3_amended_witness :
    (⟨"P", "N", "C", "IfcLabel", ["Wall", "Wall"]⟩ : MappingRecord).entities ≠ [] ∧
    ∀ e, e ∈ (⟨"P", "N", "C", "IfcLabel", ["Wall", "Wall"]⟩ : MappingRecord).entities →
      e ≠ "" ∧ strTrim e = e :=
  C3_amended_entities_trimmed_nonempty rowRepeated _ (by rfl)

/-- Claim C9: a row whose PSet cell normalises to the empty string (missing,
empty or whitespace-only — which covers entirely blank rows, none of which
are skipped) makes `from_raw` fail with the empty-PSet message, and the whole
load of any workbook containing such a row fails. -/
theorem C9_blank_pset_is_fatal (wb : Workbook) (r : RawRow) (hr : r ∈ wb.rows)
    (hp : normaliseColumn (renameRow r) "PSet" = "") :
    MappingRecord.from_raw (renameRow r) =
      .error "PSet column contains empty value." ∧
    (load_source (some wb)).isOk = false := by
  have hfr : MappingRecord.from_raw (renameRow r) = .error psetEmptyMsg := by
    simp only [MappingRecord.from_raw]
    rw [if_pos hp]
  refine ⟨hfr, ?_⟩
  simp only [load_source]
  split
  · apply loadRows_not_ok _ _ _ _ (renameRow r)
    · exact List.mem_map_of_mem renameRow hr
    · intro rec hcontra
      rw [hfr] at hcontra
      cases hcontra
  · rfl

/-- Witness for C9 at a whitespace-only PSet cell. -/
theorem C9_witness :
    MappingRecord.from_raw (renameRow (mkRow "   " "N" "C" "IfcLabel" "Wall")) =
      .error "PSet column contains empty value." ∧
    (load_source (some wbBlankPset)).isOk = false :=
  C9_blank_pset_is_fatal wbBlankPset (mkRow "   " "N" "C" "IfcLabel" "Wall")
    (by decide) (by decide)

/-- Claim C5: once the three name fields are non-empty, a stripped type token
outside the closed allow-list (including the empty string) makes validation
fail with an error whose message names the offending value, and no default is
substituted; conversely a type token in the allow-list passes the type rule —
the row then either validates or fails only the later entity rule. -/
theorem C5_type_token_allowlist (r : RawRow)
    (hp : normaliseColumn r "PSet" ≠ "")
    (hn : normaliseColumn r "Nome_IFC" ≠ "")
    (hc : normaliseColumn r "Nome_Civil" ≠ "") :
    (normaliseColumn r "Tipo_IFC" ∉ ALLOWED_TYPES →
      MappingRecord.from_raw r =
        .error (typeErrorMsg (normaliseColumn r "Tipo_IFC")
          (nameCorrection (normaliseColumn r "Nome_IFC"))) ∧
      ∃ pre post : String,
        typeErrorMsg (normaliseColumn r "Tipo_IFC")
            (nameCorrection (normaliseColumn r "Nome_IFC")) =
          pre ++ normaliseColumn r "Tipo_IFC" ++ post) ∧
    (normaliseColumn r "Tipo_IFC" ∈ ALLOWED_TYPES →
      (∃ rec, MappingRecord.from_raw r = .ok rec) ∨
      MappingRecord.from_raw r =
        .error (entitiesErrorMsg (nameCorrection (normaliseColumn r "Nome_IFC"))
          (normaliseColumn r "PSet"))) := by
  constructor
  · intro h4
    constructor
    · simp only [MappingRecord.from_raw]
      rw [if_neg hp, if_neg hn, if_neg hc, if_neg h4]
    · exact ⟨"Tipo_IFC " ++ sq,
        sq ++ " is not an allowed IFC measure type for property " ++ sq ++
          nameCorrection (normaliseColumn r "Nome_IFC") ++ sq ++ ".", rfl⟩
  · intro h4
    simp only [MappingRecord.from_raw]
    rw [if_neg hp, if_neg hn, if_neg hc, if_pos h4]
    by_cases h5 : normaliseColumn r "Entita_IFC" = ""
    · rw [if_pos h5]
      right
      rfl
    · rw [if_neg h5]
      by_cases h6 : parseEntities (normaliseColumn r "Entita_IFC") = []
      · rw [if_pos h6]
        right
        rfl
      · rw [if_neg h6]
        left
        exact ⟨_, rfl⟩

/-- Witness for C5 at a row whose type cell is empty: the empty string is not
in the allow-list, so validation fails with the message naming it. -/
theorem C5_witness :
    (normaliseColumn rowEmptyType "Tipo_IFC" ∉ ALLOWED_TYPES →
      MappingRecord.from_raw rowEmptyType =
        .error (typeErrorMsg (normaliseColumn rowEmptyType "Tipo_IFC")
          (nameCorrection (normaliseColumn rowEmptyType "Nome_IFC"))) ∧
      ∃ pre post : String,
        typeErrorMsg (normaliseColumn rowEmptyType "Tipo_IFC")
            (nameCorrection (normaliseColumn rowEmptyType "Nome_IFC")) =
          pre ++ normaliseColumn rowEmptyType "Tipo_IFC" ++ post) ∧
    (normaliseColumn rowEmptyType "Tipo_IFC" ∈ ALLOWED_TYPES →
      (∃ rec, MappingRecord.from_raw rowEmptyType = .ok rec) ∨
      MappingRecord.from_raw rowEmptyType =
        .error (entitiesErrorMsg
          (nameCorrection (normaliseColumn rowEmptyType "Nome_IFC"))
          (normaliseColumn rowEmptyType "PSet"))) :=
  C5_type_token_allowlist rowEmptyType (by decide) (by decide) (by decide)

/-- Counterexample to claim C1: a workbook with two rows in the same PSet
whose property names are equal after lowercasing (`Foo` and `foo`) loads
successfully — no duplicate-property error is raised, because the duplicate
check on `(pset, ifc_name)` is case-sensitive. -/
theorem C1_counterexample :
    load_source (some wbCase) = .ok recsCase ∧
    recsCase.map MappingRecord.pset = ["P", "P"] ∧
    recsCase.map (fun r => strLower r.ifc_name) = ["foo", "foo"] ∧
    recsCase.map MappingRecord.ifc_name = ["Foo", "foo"] :=
  ⟨by rfl, by rfl, by decide, by rfl⟩

/-- Claim C1 as amended: within one successful load no two records agree on
`(group key, property name)` compared exactly (case-sensitively), and no two
agree on `(group key, source-attribute-name-lowercased)`; either duplication
is rejected with a hard error, but property names differing only in case are
distinct keys. -/
theorem C1_amended_uniqueness (src : Option Workbook)
    (records : List MappingRecord) (h : load_source src = .ok records) :
    records.Pairwise uniqRel := by
  cases src with
  | none => cases h
  | some wb =>
    simp only [load_source] at h
    split at h
    · refine loadRows_pairwise _ _ _ _ _ ?_ List.Pairwise.nil h
      intro r hr
      simp at hr
    · cases h

/-- Witness for the amended C1 at the mixed-case workbook. -/
theorem C1_amended_witness : recsCase.Pairwise uniqRel :=
  C1_amended_uniqueness (some wbCase) recsCase (by rfl)

/-- Counterexample to claim C2: a valid workbook whose property names are `a`
and `B` yields the Properties order `B, a` (code-point order), while the
case-insensitive comparison puts `a` strictly before `B` — so the emitted
list is not case-insensitively sorted. -/
theorem C2_counterexample :
    load_source (some wbMixed) = .ok recsMixed ∧
    (build_property_sets recsMixed).1.map
        (fun t => t.Properties.map PropertyEntry.Name) = [["B", "a"]] ∧
    strLe (strLower "B") (strLower "a") = false :=
  ⟨by rfl, by decide, by rfl⟩

/-- Claim C2 as amended: within each emitted PropertySetTemplate the
Properties list is sorted by property name under the case-sensitive
(code-point lexicographic) order, not the case-insensitive one. -/
theorem C2_amended_properties_sorted_case_sensitive
    (records : List MappingRecord) (t : PropertySetTemplate)
    (ht : t ∈ (build_property_sets records).1) :
    t.Properties.Pairwise (fun a b => strLe a.Name b.Name = true) := by
  simp only [build_property_sets] at ht
  rw [List.mem_map] at ht
  obtain ⟨pset, hp, hteq⟩ := ht
  rw [← hteq]
  rw [List.pairwise_map]
  exact sortRecords_pairwise _

/-- Witness for the amended C2 at the mixed-case-name records. -/
theorem C2_amended_witness :
    tMixed.Properties.Pairwise (fun a b => strLe a.Name b.Name = true) :=
  C2_amended_properties_sorted_case_sensitive recsMixed tMixed (by decide)

/-- Claim C6: each emitted group's ApplicableEntities equals the sorted,
deduplicated union of the entity lists of the group's member records: it is
sorted, duplicate-free, and contains exactly the entities occurring in some
record of the group. -/
theorem C6_applicable_entities_sorted_dedup_union
    (records : List MappingRecord) (t : PropertySetTemplate)
    (ht : t ∈ (build_property_sets records).1) :
    t.ApplicableEntities.Pairwise StrLeP ∧ t.ApplicableEntities.Nodup ∧
    ∀ e, e ∈ t.ApplicableEntities ↔
      ∃ r, r ∈ records ∧ r.pset = t.Name ∧ e ∈ r.entities := by
  simp only [build_property_sets] at ht
  rw [List.mem_map] at ht
  obtain ⟨pset, hp, hteq⟩ := ht
  rw [← hteq]
  refine ⟨sortStrings_pairwise _, ?_, ?_⟩
  · exact ((sortStrings_perm _).symm).nodup (ge_nodup records pset)
  · intro e
    rw [List.Perm.mem_iff (sortStrings_perm _)]
    exact ge_mem records pset e

/-- Witness for C6 at a two-group record list. -/
theorem C6_witness :
    tQ.ApplicableEntities.Pairwise StrLeP ∧ tQ.ApplicableEntities.Nodup ∧
    ∀ e, e ∈ tQ.ApplicableEntities ↔
      ∃ r, r ∈ recsTwoGroups ∧ r.pset = tQ.Name ∧ e ∈ r.entities :=
  C6_applicable_entities_sorted_dedup_union recsTwoGroups tQ (by decide)

/-- Claim C8: the PropertySetTemplates list is emitted in strictly increasing
lexicographic order of group key, whatever the order in which groups appear in
the input records. -/
theorem C8_templates_sorted_by_group_key (records : List MappingRecord) :
    ((build_property_sets records).1.map PropertySetTemplate.Name).Pairwise
      (fun a b => StrLeP a b ∧ a ≠ b) := by
  have hmap : (build_property_sets records).1.map PropertySetTemplate.Name =
      sortStrings ((groupedRecordsOf records).map Prod.fst) := by
    simp only [build_property_sets, List.map_map]
    exact List.map_id _
  rw [hmap]
  have hnd : (sortStrings ((groupedRecordsOf records).map Prod.fst)).Nodup :=
    ((sortStrings_perm _).symm).nodup (gr_keys_nodup records)
  exact (sortStrings_pairwise _).and hnd

end IfcMapping
